import Mathlib

/-!
Shallow embedding of `src/inc/SmartMemoryPool.hh` (namespace `jshellen`).

The pool owns a slab of `mCapacity` blocks; a slot is identified here by its
index `i` in the slab (standing for the address `&mPool[i]`).  The lock-free
free list threaded through the unused blocks is modelled as a `List Nat` whose
head is the value of `mNextFree` (the empty list standing for `nullptr`).
`mAvailable` is a `uint64_t`, so its updates are taken modulo `2 ^ 64`.
The slab contents are modelled by `slots : List (Option V)`: `some v` when a
constructed value lives in the block, `none` when the block is raw storage or
a free-list link (the two union interpretations that hold no value).

The semantics is sequential: each compare-and-swap loop in the source succeeds
on its first attempt when there is no interference, so `allocate` pops the
head and `deallocate` pushes onto the head in one step.
-/

namespace SmartMemoryPool

/-- State of one `SmartMemoryPool<DerivedType, BaseType>` object, with
`V` the element type `DerivedType`. -/
structure PoolState (V : Type) where
  capacity : Nat
  freeList : List Nat
  avail : Nat
  slots : List (Option V)

/-- A `unique_ptr<DerivedType, SmartDeleter<BaseType>>` as handed out by
`construct`: the wrapped raw address (`none` = `nullptr`) together with the
attached `SmartDeleter`, which both branches of `construct` bind to the pool
through a `weak_ptr` to the pool's identity token (`mThisPtr`). -/
structure Handle where
  ptr : Option Nat
  deleterBound : Bool

/-- Outcome of letting a deleter (or the `unique_ptr` destructor) fire:
whether the held value's destructor ran, whether the slot was pushed back
onto the free list, and the pool state afterwards (`none` when the pool
object no longer exists). -/
structure DeleterResult (V : Type) where
  dtorRan : Bool
  slotReturned : Bool
  pool : Option (PoolState V)

/-- The constructor `SmartMemoryPool(uint64_t capacity)`: it links
`mPool[i-1].mNext = &mPool[i]` for `i = 1 .. capacity-1` and sets
`mNextFree = &mPool[0]`, so the free list is `[0, 1, ..., capacity-1]`;
`mAvailable` is initialised to `mCapacity` and no block holds a value.
(The source is only well defined for `capacity ≥ 1`, the spec's construction
contract; `capacity` is a `uint64_t`, hence below `2 ^ 64`.) -/
def mkPool (V : Type) (capacity : Nat) : PoolState V :=
  { capacity := capacity
    freeList := List.range capacity
    avail := capacity
    slots := List.replicate capacity none }

/-- `allocate()`: pop `mNextFree` via the CAS loop; returns `nullopt` and
leaves the state untouched when the head is `nullptr`.  It does not touch
`mAvailable`. -/
def allocate {V : Type} (s : PoolState V) : Option Nat × PoolState V :=
  match s.freeList with
  | [] => (none, s)
  | p :: rest => (some p, { s with freeList := rest })

/-- `deallocate(BaseType* p)`: push block `p` onto the free list via the CAS
loop, then `mAvailable++` (a `uint64_t` increment). -/
def deallocate {V : Type} (s : PoolState V) (p : Nat) : PoolState V :=
  { s with
    freeList := p :: s.freeList
    avail := (s.avail + 1) % 2 ^ 64 }

/-- `available()`: load of `mAvailable`. -/
def available {V : Type} (s : PoolState V) : Nat :=
  s.avail

/-- `construct(args...)`: call `allocate()`; on `nullopt` return a null
handle whose deleter is still bound to the pool through `weak_ptr(mThisPtr)`;
otherwise `mAvailable--`, placement-`new` the value over the claimed block,
and return the wrapping handle. -/
def construct {V : Type} (s : PoolState V) (v : V) : PoolState V × Handle :=
  match allocate s with
  | (none, s1) => (s1, { ptr := none, deleterBound := true })
  | (some p, s1) =>
      ({ s1 with
         avail := (s1.avail + (2 ^ 64 - 1)) % 2 ^ 64
         slots := s1.slots.set p (some v) },
       { ptr := some p, deleterBound := true })

/-- `destruct(DerivedType* p)`: return on `nullptr`; otherwise run
`p->~value_type()` (the block no longer holds a value) and then
`deallocate(p)`. -/
def destructPtr {V : Type} (s : PoolState V) : Option Nat → PoolState V
  | none => s
  | some p => deallocate { s with slots := s.slots.set p none } p

/-- `unique_ptr::release()`: hand back the wrapped raw address and leave the
handle holding `nullptr`. -/
def Handle.release (h : Handle) : Option Nat × Handle :=
  (h.ptr, { h with ptr := none })

/-- `destruct(unique_ptr p)`: `auto t_ptr = p.release();` then
`destruct(t_ptr)`.  Also returns the emptied handle, whose own deleter can
no longer see the address. -/
def destructHandle {V : Type} (s : PoolState V) (h : Handle) : PoolState V × Handle :=
  (destructPtr s (h.release).1, (h.release).2)

/-- `SmartDeleter::operator()(B* ptr)` invoked on a non-null address `p`.
`lockResult` is the outcome of `mParentPool.lock()`: `some s` when the pool
is still alive in state `s`, `none` after the pool has been destroyed.  In
the source the whole body sits inside `if (auto pool = mParentPool.lock())`:
only on a successful lock does it run `ptr->~B()` and then
`(*pool.get())->deallocate(ptr)`; on a failed lock it does nothing at all. -/
def smartDeleterRun {V : Type} (lockResult : Option (PoolState V)) (p : Nat) :
    DeleterResult V :=
  match lockResult with
  | some s =>
      { dtorRan := true
        slotReturned := true
        pool := some (deallocate { s with slots := s.slots.set p none } p) }
  | none => { dtorRan := false, slotReturned := false, pool := none }

/-- Destruction of a `unique_ptr` handle going out of scope: the standard
library invokes the attached deleter only when the wrapped address is
non-null. -/
def handleDrop {V : Type} (lockResult : Option (PoolState V)) (h : Handle) :
    DeleterResult V :=
  match h.ptr with
  | none => { dtorRan := false, slotReturned := false, pool := lockResult }
  | some p => smartDeleterRun lockResult p

/-- Primitive state-changing steps of the pool's operations, in the order the
source performs them. -/
inductive Effect (V : Type) where
  | popFree (p : Nat)
  | popFail
  | pushFree (p : Nat)
  | incAvail
  | decAvail
  | placementNew (p : Nat) (v : V)
  | dtor (p : Nat)

/-- Whether an effect is a value-destructor run. -/
def Effect.isDtor {V : Type} : Effect V → Bool
  | .dtor _ => true
  | _ => false

/-- Whether an effect is a free-list push. -/
def Effect.isPushFree {V : Type} : Effect V → Bool
  | .pushFree _ => true
  | _ => false

/-- Interpretation of one primitive effect on the pool state. -/
def applyEffect {V : Type} (s : PoolState V) : Effect V → PoolState V
  | .popFree _ => { s with freeList := s.freeList.tail }
  | .popFail => s
  | .pushFree p => { s with freeList := p :: s.freeList }
  | .incAvail => { s with avail := (s.avail + 1) % 2 ^ 64 }
  | .decAvail => { s with avail := (s.avail + (2 ^ 64 - 1)) % 2 ^ 64 }
  | .placementNew p v => { s with slots := s.slots.set p (some v) }
  | .dtor p => { s with slots := s.slots.set p none }

/-- Replay a list of primitive effects in order. -/
def runEffects {V : Type} (s : PoolState V) (es : List (Effect V)) : PoolState V :=
  es.foldl applyEffect s

/-- The primitive steps of `deallocate(p)` in source order: the CAS push of
the block, then the `mAvailable++`. -/
def deallocateSteps {V : Type} (p : Nat) : List (Effect V) :=
  [.pushFree p, .incAvail]

/-- The primitive steps of `construct` in source order, given the free list
observed by its `allocate()` call: on success the CAS pop, then
`mAvailable--`, then the placement-`new` over the claimed block. -/
def constructSteps {V : Type} (s : PoolState V) (v : V) : List (Effect V) :=
  match s.freeList with
  | [] => [.popFail]
  | p :: _ => [.popFree p, .decAvail, .placementNew p v]

/-- The primitive steps of `destruct(DerivedType* p)` in source order: nothing
for `nullptr`, otherwise the destructor call followed by the steps of
`deallocate(p)`. -/
def destructSteps {V : Type} : Option Nat → List (Effect V)
  | none => []
  | some p => .dtor p :: deallocateSteps p

/-- One caller-visible operation of the sequential claim/release protocol. -/
inductive PoolOp (V : Type) where
  | construct (v : V)
  | destruct (p : Option Nat)

/-- Run one operation (ignoring the returned handle). -/
def runOp {V : Type} (s : PoolState V) : PoolOp V → PoolState V
  | .construct v => (construct s v).1
  | .destruct p => destructPtr s p

/-- Run a sequence of operations. -/
def runOps {V : Type} : PoolState V → List (PoolOp V) → PoolState V
  | s, [] => s
  | s, op :: ops => runOps (runOp s op) ops

/-- Block `p` currently holds a constructed value. -/
def slotClaimed {V : Type} (s : PoolState V) (p : Nat) : Bool :=
  match s.slots[p]? with
  | some (some _) => true
  | _ => false

/-- The caller contract of §4.1/§7: `destruct` is only invoked on `nullptr`
or on an address currently claimed from this pool (no double release, no
foreign address). -/
def validOp {V : Type} (s : PoolState V) : PoolOp V → Bool
  | .construct _ => true
  | .destruct none => true
  | .destruct (some p) => slotClaimed s p

/-- A whole operation sequence respects the caller contract. -/
def validOps {V : Type} : PoolState V → List (PoolOp V) → Bool
  | _, [] => true
  | s, op :: ops => validOp s op && validOps (runOp s op) ops

/-- Number of currently claimed slots (blocks holding a live value). -/
def claimedCount {V : Type} (s : PoolState V) : Nat :=
  s.slots.countP Option.isSome

/-- Well-formedness of a sequentially reachable pool state. -/
structure Wf {V : Type} (s : PoolState V) : Prop where
  slots_len : s.slots.length = s.capacity
  cap_lt : s.capacity < 2 ^ 64
  nodup : s.freeList.Nodup
  free_lt : ∀ p ∈ s.freeList, p < s.capacity
  free_none : ∀ p ∈ s.freeList, s.slots[p]? = some none
  avail_eq : s.avail = s.capacity - claimedCount s
  len_eq : s.freeList.length + claimedCount s = s.capacity

lemma construct_freeList {V : Type} (s : PoolState V) (v : V) :
    ((construct s v).1).freeList = s.freeList.tail := by
  cases hfl : s.freeList <;> simp [construct, allocate, hfl]

lemma construct_ptr {V : Type} (s : PoolState V) (v : V) :
    ((construct s v).2).ptr = s.freeList.head? := by
  cases hfl : s.freeList <;> simp [construct, allocate, hfl]

/-- Iterate `construct`, discarding the handles. -/
def constructN {V : Type} (s : PoolState V) (v : V) : Nat → PoolState V
  | 0 => s
  | n + 1 => (construct (constructN s v n) v).1

lemma constructN_freeList {V : Type} (s : PoolState V) (v : V) (k : Nat) :
    (constructN s v k).freeList = s.freeList.drop k := by
  induction k with
  | zero => simp [constructN]
  | succ n ih => rw [constructN, construct_freeList, ih, List.tail_drop]

/-- C1: the claim states that for a handle wrapping a non-null address, the
deleter runs the held value's destructor unconditionally, even when the
owning pool has already been destroyed (weak-reference resolution fails),
skipping only the slot return.  The source contradicts this: in
`SmartDeleter::operator()` the call `ptr->~B()` sits inside the
`if (auto pool = mParentPool.lock())` block, so on a dead pool the deleter
does nothing — the destructor is skipped together with the slot return.
This theorem evaluates the deleter at the failing input (non-null address,
pool destroyed): no destructor run, no slot return. -/
theorem C1_deleter_skips_dtor_after_teardown :
    smartDeleterRun (V := Unit) none 0
      = { dtorRan := false, slotReturned := false, pool := none } := rfl

/-- C3: the free list is a LIFO stack: from any pool with at least three
free slots, releasing distinct slot addresses A, B, C in that order and then
claiming three times yields exactly C, then B, then A — and the free list is
back where it started. -/
theorem C3_free_list_lifo {V : Type} (s : PoolState V) (A B C : Nat)
    (hfree : 3 ≤ s.freeList.length) (hAB : A ≠ B) (hBC : B ≠ C) (hAC : A ≠ C) :
    (allocate (deallocate (deallocate (deallocate s A) B) C)).1 = some C ∧
    (allocate (allocate (deallocate (deallocate (deallocate s A) B) C)).2).1
      = some B ∧
    (allocate (allocate
        (allocate (deallocate (deallocate (deallocate s A) B) C)).2).2).1
      = some A ∧
    (allocate (allocate
        (allocate (deallocate (deallocate (deallocate s A) B) C)).2).2).2.freeList
      = s.freeList := by
  refine ⟨?_, ?_, ?_, ?_⟩ <;> simp [allocate, deallocate]

/-- C3 witness: a pool of capacity 6 with slots 0, 1, 2 claimed (so three
slots remain free); releasing 0, 1, 2 and claiming three times yields
2, then 1, then 0. -/
theorem C3_free_list_lifo_witness :
    (3 ≤ (constructN (mkPool Unit 6) () 3).freeList.length ∧
      (0 : Nat) ≠ 1 ∧ (1 : Nat) ≠ 2 ∧ (0 : Nat) ≠ 2) ∧
    ((allocate (deallocate (deallocate
        (deallocate (constructN (mkPool Unit 6) () 3) 0) 1) 2)).1 = some 2 ∧
     (allocate (allocate (deallocate (deallocate
        (deallocate (constructN (mkPool Unit 6) () 3) 0) 1) 2)).2).1 = some 1 ∧
     (allocate (allocate (allocate (deallocate (deallocate
        (deallocate (constructN (mkPool Unit 6) () 3) 0) 1) 2)).2).2).1
        = some 0 ∧
     (allocate (allocate (allocate (deallocate (deallocate
        (deallocate (constructN (mkPool Unit 6) () 3) 0) 1) 2)).2).2).2.freeList
        = (constructN (mkPool Unit 6) () 3).freeList) :=
  ⟨⟨by decide, by decide, by decide, by decide⟩,
    C3_free_list_lifo (constructN (mkPool Unit 6) () 3) 0 1 2
      (by decide) (by decide) (by decide) (by decide)⟩

/-- C6: `deallocate` first pushes the slot onto the free list and then, as a
separate step, increments the live counter; a successful `construct` pops
the head, decrements the live counter, and then placement-constructs the
value over the claimed block — and replaying those primitive steps in that
order reproduces exactly the state each operation computes. -/
theorem C6_step_order {V : Type} (s : PoolState V) (v : V) (p : Nat)
    (rest : List Nat) (hs : s.freeList = p :: rest) :
    deallocateSteps (V := V) p = [Effect.pushFree p, Effect.incAvail] ∧
    (∀ t : PoolState V, runEffects t (deallocateSteps p) = deallocate t p) ∧
    constructSteps s v
      = [Effect.popFree p, Effect.decAvail, Effect.placementNew p v] ∧
    runEffects s (constructSteps s v) = (construct s v).1 := by
  refine ⟨rfl, fun t => rfl, ?_, ?_⟩ <;>
    simp [constructSteps, runEffects, applyEffect, construct, allocate, hs]

/-- C6 witness: the step order at a fresh pool of capacity 2, whose free
list starts with slot 0. -/
theorem C6_step_order_witness :
    (mkPool Unit 2).freeList = 0 :: [1] ∧
    (deallocateSteps (V := Unit) 0 = [Effect.pushFree 0, Effect.incAvail] ∧
     (∀ t : PoolState Unit,
        runEffects t (deallocateSteps 0) = deallocate t 0) ∧
     constructSteps (mkPool Unit 2) ()
       = [Effect.popFree 0, Effect.decAvail, Effect.placementNew 0 ()] ∧
     runEffects (mkPool Unit 2) (constructSteps (mkPool Unit 2) ())
       = (construct (mkPool Unit 2) ()).1) :=
  ⟨by decide, C6_step_order (mkPool Unit 2) () 0 [1] (by decide)⟩

/-- C7: `construct` on an exhausted pool returns a handle holding no value
whose deleter is still bound to the pool, and that null handle is harmless:
dropping it never invokes the deleter (no destructor, no slot return, pool
untouched), and `destruct`ing it through the pool is a no-op as well. -/
theorem C7_null_handle_safe {V : Type} (s : PoolState V) (v : V)
    (hex : s.freeList = []) :
    (construct s v).2 = { ptr := none, deleterBound := true } ∧
    (∀ lockResult : Option (PoolState V),
      handleDrop lockResult (construct s v).2
        = { dtorRan := false, slotReturned := false, pool := lockResult }) ∧
    (∀ t : PoolState V, (destructHandle t (construct s v).2).1 = t) := by
  refine ⟨?_, ?_, ?_⟩ <;>
    simp [construct, allocate, hex, handleDrop, destructHandle, Handle.release,
      destructPtr]

/-- C7 witness: a capacity-1 pool exhausted by one `construct`; the next
`construct` yields a null-but-bound handle that is safe to drop or
`destruct`. -/
theorem C7_null_handle_safe_witness :
    ((construct (mkPool Unit 1) ()).1).freeList = [] ∧
    ((construct ((construct (mkPool Unit 1) ()).1) ()).2
        = { ptr := none, deleterBound := true } ∧
     (∀ lockResult : Option (PoolState Unit),
        handleDrop lockResult ((construct ((construct (mkPool Unit 1) ()).1) ()).2)
          = { dtorRan := false, slotReturned := false, pool := lockResult }) ∧
     (∀ t : PoolState Unit,
        (destructHandle t ((construct ((construct (mkPool Unit 1) ()).1) ()).2)).1
          = t)) :=
  ⟨by decide, C7_null_handle_safe ((construct (mkPool Unit 1) ()).1) () (by decide)⟩

/-- C8: `destruct` on a null address is a no-op — no destructor runs (its
step trace is empty) and the state, free list and live counter included, is
unchanged; on a non-null address it runs the value's destructor and then
performs the release (free-list push, then counter increment), and replaying
that trace is exactly `destruct`. -/
theorem C8_destruct_null_noop {V : Type} (s : PoolState V) (p : Nat) :
    destructPtr s none = s ∧
    destructSteps (V := V) none = [] ∧
    destructSteps (V := V) (some p)
      = [Effect.dtor p, Effect.pushFree p, Effect.incAvail] ∧
    runEffects s (destructSteps (V := V) (some p)) = destructPtr s (some p) := by
  refine ⟨rfl, rfl, rfl, ?_⟩
  simp [destructSteps, deallocateSteps, runEffects, applyEffect, destructPtr,
    deallocate]

/-- C9: `construct` is atomic on failure: whenever it returns a null handle,
the pool state is completely unchanged — in particular the free list is
still empty and the available counter was not decremented. -/
theorem C9_construct_failure_pure {V : Type} (s : PoolState V) (v : V)
    (hnull : ((construct s v).2).ptr = none) :
    (construct s v).1 = s ∧
    ((construct s v).1).freeList = [] ∧
    available (construct s v).1 = available s := by
  rw [construct_ptr] at hnull
  cases hfl : s.freeList with
  | nil =>
      refine ⟨?_, ?_, ?_⟩ <;> simp [construct, allocate, hfl, available]
  | cons p rest => rw [hfl] at hnull; simp at hnull

/-- C9 witness: the second `construct` on a capacity-1 pool returns a null
handle and leaves the exhausted state untouched. -/
theorem C9_construct_failure_pure_witness :
    ((construct ((construct (mkPool Unit 1) ()).1) ()).2).ptr = none ∧
    ((construct ((construct (mkPool Unit 1) ()).1) ()).1
        = (construct (mkPool Unit 1) ()).1 ∧
     ((construct ((construct (mkPool Unit 1) ()).1) ()).1).freeList = [] ∧
     available (construct ((construct (mkPool Unit 1) ()).1) ()).1
        = available ((construct (mkPool Unit 1) ()).1)) :=
  ⟨by decide, C9_construct_failure_pure ((construct (mkPool Unit 1) ()).1) ()
    (by decide)⟩

/-- C2: for a non-null handle, the explicit release path
`Pool.destruct(Handle)` (equivalently, `Pool.destruct` on the raw address
released from it) has the same effect as letting the handle's own deleter
fire on the live pool: the value's destructor runs, the slot is returned,
and the resulting pool state is identical either way. -/
theorem C2_destruct_equiv_deleter {V : Type} (s : PoolState V) (h : Handle)
    (p : Nat) (hp : h.ptr = some p) :
    (destructHandle s h).1 = destructPtr s (some p) ∧
    handleDrop (some s) h
      = { dtorRan := true, slotReturned := true,
          pool := some (destructPtr s (some p)) } := by
  refine ⟨?_, ?_⟩ <;>
    simp [destructHandle, Handle.release, hp, handleDrop, smartDeleterRun,
      destructPtr]

/-- C2 witness: the handle for slot 0 of a capacity-1 pool; destructing it
through the pool coincides with letting its deleter fire. -/
theorem C2_destruct_equiv_deleter_witness :
    ((construct (mkPool Unit 1) ()).2).ptr = some 0 ∧
    ((destructHandle ((construct (mkPool Unit 1) ()).1)
        ((construct (mkPool Unit 1) ()).2)).1
       = destructPtr ((construct (mkPool Unit 1) ()).1) (some 0) ∧
     handleDrop (some ((construct (mkPool Unit 1) ()).1))
        ((construct (mkPool Unit 1) ()).2)
       = { dtorRan := true, slotReturned := true,
           pool := some (destructPtr ((construct (mkPool Unit 1) ()).1)
                     (some 0)) }) :=
  ⟨by decide, C2_destruct_equiv_deleter ((construct (mkPool Unit 1) ()).1)
    ((construct (mkPool Unit 1) ()).2) 0 (by decide)⟩

/-- C10: `Pool.destruct(Handle)` first releases ownership of the raw address
from the handle, so the destructor and the slot return happen exactly once:
the returned handle wraps `nullptr`, dropping it later never re-invokes the
deleter, and the step trace of the release contains exactly one destructor
run and one free-list push. -/
theorem C10_destruct_handle_once {V : Type} (s : PoolState V) (h : Handle)
    (p : Nat) (hp : h.ptr = some p) :
    ((destructHandle s h).2).ptr = none ∧
    (destructHandle s h).1 = destructPtr s (some p) ∧
    (∀ lockResult : Option (PoolState V),
      handleDrop lockResult (destructHandle s h).2
        = { dtorRan := false, slotReturned := false, pool := lockResult }) ∧
    (destructSteps (V := V) (some p)).countP Effect.isDtor = 1 ∧
    (destructSteps (V := V) (some p)).countP Effect.isPushFree = 1 := by
  refine ⟨?_, ?_, ?_, ?_, ?_⟩ <;>
    simp [destructHandle, Handle.release, hp, handleDrop, destructSteps,
      deallocateSteps, List.countP_cons, Effect.isDtor, Effect.isPushFree]

/-- C10 witness: destructing the handle for slot 0 of a capacity-1 pool
leaves a null handle whose later drop is a no-op, with exactly one
destructor run and one push in the trace. -/
theorem C10_destruct_handle_once_witness :
    ((construct (mkPool Unit 1) ()).2).ptr = some 0 ∧
    (((destructHandle (mkPool Unit 1) ((construct (mkPool Unit 1) ()).2)).2).ptr
        = none ∧
     (destructHandle (mkPool Unit 1) ((construct (mkPool Unit 1) ()).2)).1
        = destructPtr (mkPool Unit 1) (some 0) ∧
     (∀ lockResult : Option (PoolState Unit),
        handleDrop lockResult
            (destructHandle (mkPool Unit 1) ((construct (mkPool Unit 1) ()).2)).2
          = { dtorRan := false, slotReturned := false, pool := lockResult }) ∧
     (destructSteps (V := Unit) (some 0)).countP Effect.isDtor = 1 ∧
     (destructSteps (V := Unit) (some 0)).countP Effect.isPushFree = 1) :=
  ⟨by decide, C10_destruct_handle_once (mkPool Unit 1)
    ((construct (mkPool Unit 1) ()).2) 0 (by decide)⟩

/-- C4: a pool constructed with positive capacity N starts with all N slots
free; the k-th of N back-to-back `construct` calls (no intervening release)
succeeds, claiming slot k, and the (N+1)-th call returns a null handle —
at most N live handles can exist at once. -/
theorem C4_capacity_exhaustion {V : Type} (v : V) (N : Nat) (hN : 0 < N) :
    (mkPool V N).freeList = List.range N ∧
    (mkPool V N).freeList.length = N ∧
    (∀ k, k < N →
      ((construct (constructN (mkPool V N) v k) v).2).ptr = some k) ∧
    ((construct (constructN (mkPool V N) v N) v).2).ptr = none := by
  refine ⟨rfl, by simp [mkPool], ?_, ?_⟩
  · intro k hk
    rw [construct_ptr, constructN_freeList, List.head?_drop]
    simp [mkPool, List.getElem?_range hk]
  · rw [construct_ptr, constructN_freeList, List.head?_drop]
    simp [mkPool]

/-- C4 witness: capacity 3 — three successful claims of slots 0, 1, 2, then
a null handle on the fourth `construct`. -/
theorem C4_capacity_exhaustion_witness :
    0 < 3 ∧
    ((mkPool Unit 3).freeList = List.range 3 ∧
     (mkPool Unit 3).freeList.length = 3 ∧
     (∀ k, k < 3 →
        ((construct (constructN (mkPool Unit 3) () k) ()).2).ptr = some k) ∧
     ((construct (constructN (mkPool Unit 3) () 3) ()).2).ptr = none) :=
  ⟨by decide, C4_capacity_exhaustion () 3 (by decide)⟩

lemma countP_isSome_replicate_none {V : Type} (N : Nat) :
    (List.replicate N (none : Option V)).countP Option.isSome = 0 := by
  simp [List.countP_eq_zero, List.mem_replicate]

lemma wf_mkPool (V : Type) (N : Nat) (hN : N < 2 ^ 64) : Wf (mkPool V N) := by
  refine ⟨?_, hN, ?_, ?_, ?_, ?_, ?_⟩
  · simp [mkPool]
  · simp [mkPool, List.nodup_range]
  · intro p hp
    simpa [mkPool, List.mem_range] using hp
  · intro p hp
    have hlt : p < N := by simpa [mkPool, List.mem_range] using hp
    simp [mkPool, List.getElem?_replicate, hlt]
  · simp [mkPool, claimedCount, countP_isSome_replicate_none]
  · simp [mkPool, claimedCount, countP_isSome_replicate_none]

lemma wf_construct {V : Type} {s : PoolState V} (hwf : Wf s) (v : V) :
    Wf (construct s v).1 := by
  cases hfl : s.freeList with
  | nil =>
      have heq : (construct s v).1 = s := by simp [construct, allocate, hfl]
      rw [heq]; exact hwf
  | cons p rest =>
      have hmem : p ∈ s.freeList := by rw [hfl]; exact List.mem_cons_self p rest
      have hps : s.slots[p]? = some none := hwf.free_none p hmem
      obtain ⟨hp_lt, hp_get⟩ := List.getElem?_eq_some_iff.mp hps
      have hnodup : (p :: rest).Nodup := hfl ▸ hwf.nodup
      have hpnotin : p ∉ rest := (List.nodup_cons.mp hnodup).1
      have hcc : (s.slots.set p (some v)).countP Option.isSome
          = claimedCount s + 1 := by
        rw [List.countP_set _ _ _ _ hp_lt, hp_get]
        simp [claimedCount]
      have hlen : rest.length + 1 + claimedCount s = s.capacity := by
        have := hwf.len_eq
        rw [hfl] at this
        simpa [List.length_cons] using this
      have heq : (construct s v).1
          = { s with
              freeList := rest
              avail := (s.avail + (2 ^ 64 - 1)) % 2 ^ 64
              slots := s.slots.set p (some v) } := by
        simp [construct, allocate, hfl]
      rw [heq]
      have havail := hwf.avail_eq
      have hcap := hwf.cap_lt
      refine ⟨?_, hcap, ?_, ?_, ?_, ?_, ?_⟩
      · simp [List.length_set, hwf.slots_len]
      · exact (List.nodup_cons.mp hnodup).2
      · intro q hq
        exact hwf.free_lt q (by rw [hfl]; exact List.mem_cons_of_mem p hq)
      · intro q hq
        have hne : p ≠ q := fun h => hpnotin (h ▸ hq)
        rw [List.getElem?_set_ne hne]
        exact hwf.free_none q (by rw [hfl]; exact List.mem_cons_of_mem p hq)
      · show (s.avail + (2 ^ 64 - 1)) % 2 ^ 64
          = s.capacity - (s.slots.set p (some v)).countP Option.isSome
        rw [hcc]
        have h1 : s.avail + (2 ^ 64 - 1)
            = (s.capacity - (claimedCount s + 1)) + 2 ^ 64 := by omega
        rw [h1, Nat.add_mod_right]
        exact Nat.mod_eq_of_lt (by omega)
      · show rest.length + (s.slots.set p (some v)).countP Option.isSome
          = s.capacity
        rw [hcc]; omega

lemma wf_destruct {V : Type} {s : PoolState V} (hwf : Wf s) (p : Option Nat)
    (hval : validOp s (.destruct p) = true) : Wf (destructPtr s p) := by
  cases p with
  | none => exact hwf
  | some p =>
      have hclaim : slotClaimed s p = true := hval
      obtain ⟨v0, hsp⟩ : ∃ v0, s.slots[p]? = some (some v0) := by
        unfold slotClaimed at hclaim
        cases hsp : s.slots[p]? with
        | none => rw [hsp] at hclaim; simp at hclaim
        | some o =>
            cases o with
            | none => rw [hsp] at hclaim; simp at hclaim
            | some v0 => exact ⟨v0, rfl⟩
      obtain ⟨hp_lt, hp_get⟩ := List.getElem?_eq_some_iff.mp hsp
      have hpfree : p ∉ s.freeList := by
        intro hmem
        have := hwf.free_none p hmem
        rw [hsp] at this
        simp at this
      have hccpos : 0 < claimedCount s := by
        refine List.countP_pos_iff.mpr ⟨some v0, ?_, rfl⟩
        exact hp_get ▸ List.getElem_mem hp_lt
      have hcc : (s.slots.set p none).countP Option.isSome
          = claimedCount s - 1 := by
        rw [List.countP_set _ _ _ _ hp_lt, hp_get]
        simp [claimedCount]
      have heq : destructPtr s (some p)
          = { s with
              freeList := p :: s.freeList
              avail := (s.avail + 1) % 2 ^ 64
              slots := s.slots.set p none } := by
        simp [destructPtr, deallocate]
      rw [heq]
      have havail := hwf.avail_eq
      have hcap := hwf.cap_lt
      have hlen := hwf.len_eq
      refine ⟨?_, hcap, ?_, ?_, ?_, ?_, ?_⟩
      · simp [List.length_set, hwf.slots_len]
      · exact List.nodup_cons.mpr ⟨hpfree, hwf.nodup⟩
      · intro q hq
        rcases List.mem_cons.mp hq with hq | hq
        · subst hq
          calc q < s.slots.length := hp_lt
            _ = s.capacity := hwf.slots_len
        · exact hwf.free_lt q hq
      · intro q hq
        rcases List.mem_cons.mp hq with hq | hq
        · subst hq
          simp [List.getElem?_set, hp_lt]
        · have hne : p ≠ q := fun h => hpfree (h ▸ hq)
          rw [List.getElem?_set_ne hne]
          exact hwf.free_none q hq
      · show (s.avail + 1) % 2 ^ 64
          = s.capacity - (s.slots.set p none).countP Option.isSome
        rw [hcc]
        have h1 : s.avail + 1 < 2 ^ 64 := by omega
        rw [Nat.mod_eq_of_lt h1]
        omega
      · show (p :: s.freeList).length
            + (s.slots.set p none).countP Option.isSome = s.capacity
        rw [hcc]
        simp [List.length_cons]
        omega

lemma runOp_capacity {V : Type} (s : PoolState V) (op : PoolOp V) :
    (runOp s op).capacity = s.capacity := by
  cases op with
  | construct v =>
      cases hfl : s.freeList <;> simp [runOp, construct, allocate, hfl]
  | destruct p =>
      cases p <;> simp [runOp, destructPtr, deallocate]

lemma runOps_capacity {V : Type} (s : PoolState V) (ops : List (PoolOp V)) :
    (runOps s ops).capacity = s.capacity := by
  induction ops generalizing s with
  | nil => rfl
  | cons op ops ih => rw [runOps, ih, runOp_capacity]

lemma wf_runOp {V : Type} {s : PoolState V} (hwf : Wf s) (op : PoolOp V)
    (hval : validOp s op = true) : Wf (runOp s op) := by
  cases op with
  | construct v => exact wf_construct hwf v
  | destruct p => exact wf_destruct hwf p hval

lemma wf_runOps {V : Type} {s : PoolState V} (hwf : Wf s)
    (ops : List (PoolOp V)) (hval : validOps s ops = true) :
    Wf (runOps s ops) := by
  induction ops generalizing s with
  | nil => exact hwf
  | cons op ops ih =>
      rw [validOps, Bool.and_eq_true] at hval
      exact ih (wf_runOp hwf op hval.1) hval.2

/-- C5: for a pool of capacity K and any sequential sequence of
construct/destruct operations respecting the caller contract, `available()`
always equals K minus the number of currently claimed slots; in particular,
once every issued slot has been released it returns K again. -/
theorem C5_available_counts_unclaimed {V : Type} (K : Nat) (hK : K < 2 ^ 64)
    (ops : List (PoolOp V)) (hval : validOps (mkPool V K) ops = true) :
    available (runOps (mkPool V K) ops)
      = K - claimedCount (runOps (mkPool V K) ops) ∧
    (claimedCount (runOps (mkPool V K) ops) = 0 →
      available (runOps (mkPool V K) ops) = K) := by
  have hwf := wf_runOps (wf_mkPool V K hK) ops hval
  have hcap : (runOps (mkPool V K) ops).capacity = K :=
    runOps_capacity (mkPool V K) ops
  have h1 : available (runOps (mkPool V K) ops)
      = K - claimedCount (runOps (mkPool V K) ops) := by
    rw [available, hwf.avail_eq, hcap]
  exact ⟨h1, fun h0 => by rw [h1, h0, Nat.sub_zero]⟩

/-- C5 witness: capacity 2, two claims followed by the two matching
releases — `available()` tracks 2 minus the claimed count and settles back
at 2. -/
theorem C5_available_counts_unclaimed_witness :
    ((2 : Nat) < 2 ^ 64 ∧
     validOps (mkPool Unit 2)
        [PoolOp.construct (), PoolOp.construct (),
         PoolOp.destruct (some 0), PoolOp.destruct (some 1)] = true) ∧
    (available (runOps (mkPool Unit 2)
        [PoolOp.construct (), PoolOp.construct (),
         PoolOp.destruct (some 0), PoolOp.destruct (some 1)])
       = 2 - claimedCount (runOps (mkPool Unit 2)
        [PoolOp.construct (), PoolOp.construct (),
         PoolOp.destruct (some 0), PoolOp.destruct (some 1)]) ∧
     (claimedCount (runOps (mkPool Unit 2)
        [PoolOp.construct (), PoolOp.construct (),
         PoolOp.destruct (some 0), PoolOp.destruct (some 1)]) = 0 →
      available (runOps (mkPool Unit 2)
        [PoolOp.construct (), PoolOp.construct (),
         PoolOp.destruct (some 0), PoolOp.destruct (some 1)]) = 2)) :=
  ⟨⟨by decide, by decide⟩,
    C5_available_counts_unclaimed 2 (by decide)
      [PoolOp.construct (), PoolOp.construct (),
       PoolOp.destruct (some 0), PoolOp.destruct (some 1)] (by decide)⟩

end SmartMemoryPool
